import Mathlib

/-!
Verification of the MMN repository: a shallow embedding in Lean 4 of the
multi Miyamoto-Nagai disk model code (src/mnn/model.py and
src/MultiMiyamotoNagai/model.py, src/MultiMiyamotoNagai/fitter.py), with
theorems settling the frozen claims about it.

Python floats are modelled as real numbers; integral exponents written
`** 2` or `** 2.0` / `** 3.0` in the source are modelled by the monoid
power (on floats `x ** 2.0` is squaring), while fractional exponents
(`** 2.5`, `** 1.5`) use the real power `Real.rpow`.  Raised Python
exceptions are modelled by `Except` values.
-/

/-- A disk's normal axis: the Python code uses the strings "x", "y", "z"
(any string other than "x"/"y" falls into the "z" branch of each
dispatch, so an inductive with three constructors is faithful for the
valid inputs). -/
inductive Axis
  | x
  | y
  | z
deriving DecidableEq, Repr, Inhabited

/-- `G = 0.0043008211`: the gravitational constant used by both variants
(module-level `G` in src/mnn/model.py, and the same literal bound locally
inside each quantity function of src/MultiMiyamotoNagai/model.py). -/
noncomputable def G : ℝ := 0.0043008211

/-- Exceptions the modelled Python code can raise. -/
inductive PyExc
  | attributeError
  | typeError
deriving DecidableEq, Repr

/-- `mnn.model.MNnError`, raised by `add_disc` when a disc height is
negative (the payload records the offending `b`). -/
inductive MNnError
  | heightNegative (b : ℝ)

/-- The state of `mnn.model.MNnModel`: the flat list of disc parameters
(`self.discs`, one `a, b, M` triple per disc) and the parallel list of
normal axes (`self.axes`).  The `diz` normalization factor and the
data-fitting fields are never read by the code under verification and
are omitted. -/
structure MNnModel where
  discs : List ℝ
  axes : List Axis

/-- The state of `MultiMiyamotoNagai.model.MMNModel`: flat parameter list
`self.models` and axis list `self.axes`. -/
structure MMNModel where
  models : List ℝ
  axes : List Axis

/-- `a` of disc `i`: the Python slice `discs[3*i : 3*i+3]` unpacked; the
default 0 is never reached while the flat list holds three reals per
axis. -/
def disc_a (discs : List ℝ) (i : ℕ) : ℝ := discs.getD (3 * i) 0

/-- `b` of disc `i` (second element of the slice). -/
def disc_b (discs : List ℝ) (i : ℕ) : ℝ := discs.getD (3 * i + 1) 0

/-- `M` of disc `i` (third element of the slice). -/
def disc_M (discs : List ℝ) (i : ℕ) : ℝ := discs.getD (3 * i + 2) 0

/-- One disc's contribution at a cartesian point, as both variants
compute it: the radius is taken in the plane normal to the disc's axis
(`ryz` for axis "x", `rxz` for "y", `rxy` for "z") and the height is the
coordinate along the axis, then the scalar quantity callback is applied.
This is the `if axis == "x" ... elif ... else` dispatch that
`_evaluate_scalar_quantity` (mnn), `_evaluate_quantity` (MMN) and
`MMNFitter.sMN` all duplicate over the precomputed `rxy`, `rxz`, `ryz`. -/
noncomputable def axis_term (cb : ℝ → ℝ → ℝ → ℝ → ℝ → ℝ)
    (x y z : ℝ) (axis : Axis) (a b M : ℝ) : ℝ :=
  match axis with
  | .x => cb (Real.sqrt (y ^ 2 + z ^ 2)) x a b M
  | .y => cb (Real.sqrt (x ^ 2 + z ^ 2)) y a b M
  | .z => cb (Real.sqrt (x ^ 2 + y ^ 2)) z a b M

namespace MNnModel

/-- `MNnModel.add_disc(axis, a, b, M)`: raises `MNnError` when `b < 0`;
otherwise prints a warning when `a + b < 0` (the returned Bool records
whether the warning was printed) and appends `a, b, M` to the flat list
and `axis` to the axis list. -/
noncomputable def add_disc (m : MNnModel) (axis : Axis) (a b M : ℝ) :
    Except MNnError (MNnModel × Bool) :=
  if b < 0 then
    .error (.heightNegative b)
  else
    .ok ({ discs := m.discs ++ [a, b, M], axes := m.axes ++ [axis] },
         if a + b < 0 then true else false)

/-- `MNnModel.add_discs(values)`: repeated `add_disc`; the first raised
error aborts the remaining additions. -/
noncomputable def add_discs (m : MNnModel) :
    List (Axis × ℝ × ℝ × ℝ) → Except MNnError MNnModel
  | [] => .ok m
  | (axis, a, b, M) :: rest => do
    let r ← m.add_disc axis a b M
    add_discs r.1 rest

/-- `MNnModel.get_model()`: one `(axis, discs[3*i : 3*i+3])` entry per
stored axis, in insertion order (Python builds each entry as
`tuple([axis] + self.discs[id_axis*3:(id_axis+1)*3])`; the slice is
`drop` then `take`). -/
def get_model (m : MNnModel) : List (Axis × List ℝ) :=
  m.axes.enum.map (fun p => (p.2, (m.discs.drop (3 * p.1)).take 3))

/-- `MNnModel.mn_density(r, z, a, b, M)`: the closed-form Miyamoto-Nagai
density.  The `** 2.5` of the source is the real power. -/
noncomputable def mn_density (r z a b M : ℝ) : ℝ :=
  let h := Real.sqrt (z ^ 2 + b ^ 2)
  let fac := b ^ 2 * M / (4 * Real.pi)
  let ah2 := (a + h) ^ 2
  let ar2 := a * r ^ 2
  let a3h := a + 3 * h
  let num := ar2 + a3h * ah2
  let den := h ^ 3 * (r ^ 2 + ah2) ^ ((5 : ℝ) / 2)
  fac * num / den

/-- `MNnModel.mn_potential(r, z, a, b, M)`: `-G*M1/sqrt(den)` with
`M1 = M` (the commented-out `np.abs(M)` is not active in the source). -/
noncomputable def mn_potential (r z a b M : ℝ) : ℝ :=
  let M1 := M
  let h := Real.sqrt (z ^ 2 + b ^ 2)
  let den := r ^ 2 + (a + h) ^ 2;
  -G * M1 / Real.sqrt den

/-- `MNnModel.get_tangent_coordinates(x, y, z, axis)`: axis x → (y,z,x),
axis y → (x,z,y), otherwise (x,y,z). -/
def get_tangent_coordinates (x y z : ℝ) (axis : Axis) : ℝ × ℝ × ℝ :=
  match axis with
  | .x => (y, z, x)
  | .y => (x, z, y)
  | .z => (x, y, z)

/-- `MNnModel.mn_force(t1, t2, n, a, b, M, axis)` for scalar inputs (the
numpy array-broadcast branch is skipped for scalars): the three cartesian
force components, with `n*q2` placed in the axis's own slot.  The
`** 1.5` of the source is the real power. -/
noncomputable def mn_force (t1 t2 n a b M : ℝ) (axis : Axis) : ℝ × ℝ × ℝ :=
  let num := -G * M
  let R2 := t1 ^ 2 + t2 ^ 2
  let f1 := Real.sqrt (b ^ 2 + n ^ 2)
  let f2 := (a + f1) ^ 2
  let den := (R2 + f2) ^ ((3 : ℝ) / 2)
  let q1 := num / den
  let f3 := Real.sqrt (n ^ 2 + b ^ 2)
  let q2 := (a + f3) / f3
  match axis with
  | .x => (q1 * (n * q2), q1 * t1, q1 * t2)
  | .y => (q1 * t1, q1 * (n * q2), q1 * t2)
  | .z => (q1 * t1, q1 * t2, q1 * (n * q2))

/-- `MNnModel._evaluate_scalar_quantity(x, y, z, quantity_callback)`: the
sum, over the discs in order, of the callback applied with each disc's
own axis-local radius and height.  The source seeds `total_sum` with disc
0's value and then loops over `self.axes[1:]` with `id_mod` starting at 1
(correctly incremented), which is the indexed sum below. -/
noncomputable def evaluate_scalar_quantity (m : MNnModel) (x y z : ℝ)
    (cb : ℝ → ℝ → ℝ → ℝ → ℝ → ℝ) : ℝ :=
  (m.axes.enum.map (fun p =>
    axis_term cb x y z p.2 (disc_a m.discs p.1) (disc_b m.discs p.1)
      (disc_M m.discs p.1))).sum

/-- `MNnModel.evaluate_potential(x, y, z)`. -/
noncomputable def evaluate_potential (m : MNnModel) (x y z : ℝ) : ℝ :=
  evaluate_scalar_quantity m x y z mn_potential

/-- `MNnModel.evaluate_density(x, y, z)`. -/
noncomputable def evaluate_density (m : MNnModel) (x y z : ℝ) : ℝ :=
  evaluate_scalar_quantity m x y z mn_density

/-- `MNnModel.evaluate_force(x, y, z)`: its own summation loop (with a
correctly maintained `id_mod`), summing the per-disc cartesian force
vectors. -/
noncomputable def evaluate_force (m : MNnModel) (x y z : ℝ) : ℝ × ℝ × ℝ :=
  (m.axes.enum.map (fun p =>
    let t := get_tangent_coordinates x y z p.2
    mn_force t.1 t.2.1 t.2.2 (disc_a m.discs p.1) (disc_b m.discs p.1)
      (disc_M m.discs p.1) p.2)).sum

/-- `MNnModel._evaluate_density_axis(r, axis)`: density along one axis,
the other two coordinates held at zero. -/
noncomputable def evaluate_density_axis (m : MNnModel) (r : ℝ) (axis : Axis) : ℝ :=
  match axis with
  | .x => evaluate_scalar_quantity m r 0 0 mn_density
  | .y => evaluate_scalar_quantity m 0 r 0 mn_density
  | .z => evaluate_scalar_quantity m 0 0 r mn_density

/-- The `mr` computed inside `is_positive_definite` for one axis: the
largest scale parameter `m[1]` over the discs of `get_model()` whose axis
differs from `axis`, starting from 0.0 (strict `>` updates only). -/
noncomputable def max_nonaligned_scale (m : MNnModel) (axis : Axis) : ℝ :=
  m.get_model.foldl
    (fun mr p => if p.1 ≠ axis then (if p.2.headD 0 > mr then p.2.headD 0 else mr) else mr) 0

/-- The result 4-tuple of `scipy.optimize.fminbound(..., full_output=True)`. -/
structure FminboundOut where
  xopt : ℝ
  fval : ℝ
  ierr : ℕ
  nf : ℕ

/-- The bounded scalar minimizer `scipy.optimize.fminbound` is an external
black box: any function of the objective and the two bounds. -/
def Minimizer : Type := (ℝ → ℝ) → ℝ → ℝ → FminboundOut

/-- One axis iteration of `MNnModel.is_positive_definite`.  `.ok none`
means fall through to the next axis, `.ok (some v)` means return `v` from
the method.  When `max_range` is `None` the code derives `mr` and skips
the axis when `abs(mr) < 1e-18`; otherwise it multiplies `mr` by 10 but
then calls `op.fminbound(self._evaluate_density_axis, 0.0, max_range, ...)`
with the original `max_range` — still `None` — which the minimizer rejects
with an exception (TypeError on Python 3) before evaluating anything. -/
noncomputable def ipd_axis (minimizer : Minimizer) (m : MNnModel)
    (max_range : Option ℝ) (axis : Axis) : Except PyExc (Option Bool) :=
  match max_range with
  | none =>
    let mr := max_nonaligned_scale m axis
    if |mr| < 1e-18 then .ok none
    else .error .typeError
  | some r =>
    let out := minimizer (fun t => evaluate_density_axis m t axis) 0 r
    if out.fval < 0 then .ok (some false) else .ok none

/-- `MNnModel.is_positive_definite(max_range=None)`: the loop over the
axes `x`, `y`, `z`, returning `False` as soon as a minimized density
value is negative and `True` when the loop completes. -/
noncomputable def is_positive_definite (minimizer : Minimizer) (m : MNnModel)
    (max_range : Option ℝ) : Except PyExc Bool := do
  match ← ipd_axis minimizer m max_range .x with
  | some v => return v
  | none =>
  match ← ipd_axis minimizer m max_range .y with
  | some v => return v
  | none =>
  match ← ipd_axis minimizer m max_range .z with
  | some v => return v
  | none => return true

end MNnModel

namespace MMNModel

/-- `MMNModel.add_model(axis, a, b, M)`: appends unconditionally — this
variant performs no validation of `b` or `a + b`. -/
def add_model (m : MMNModel) (axis : Axis) (a b M : ℝ) : MMNModel :=
  { models := m.models ++ [a, b, M], axes := m.axes ++ [axis] }

/-- `MMNModel.get_models()`: same grouping as `MNnModel.get_model` (the
entries are Python lists rather than tuples). -/
def get_models (m : MMNModel) : List (Axis × List ℝ) :=
  m.axes.enum.map (fun p => (p.2, (m.models.drop (3 * p.1)).take 3))

/-- `MMNModel.mn_density(r, z, a, b, Mo)`: identical formula to the mnn
variant except that the amplitude is `M = np.sqrt(Mo**2)`, i.e. `|Mo|`. -/
noncomputable def mn_density (r z a b Mo : ℝ) : ℝ :=
  let M := Real.sqrt (Mo ^ 2)
  let h := Real.sqrt (z ^ 2 + b ^ 2)
  let ah2 := (a + h) ^ 2
  let ar2 := a * r ^ 2
  let a3h := a + 3 * h
  let num := ar2 + a3h * ah2
  let den := h ^ 3 * (r ^ 2 + ah2) ^ ((5 : ℝ) / 2)
  let fac := b ^ 2 * M / (4 * Real.pi)
  fac * num / den

/-- `MMNModel.mn_potential(r, z, a, b, Mo)`: `-G*M/sqrt(den)` with
`M = np.sqrt(Mo**2)`. -/
noncomputable def mn_potential (r z a b Mo : ℝ) : ℝ :=
  let M := Real.sqrt (Mo ^ 2)
  let h := Real.sqrt (z ^ 2 + b ^ 2)
  let den := r ^ 2 + (a + h) ^ 2;
  -G * M / Real.sqrt den

/-- `MMNModel._evaluate_quantity(x, y, z, quantity_callback)`.  The first
disc seeds the total.  The remaining loop is
`for id_mod, axis in enumerate(self.axes[1:])`, whose `id_mod` counts
from 0, and the body reads `self.models[id_mod*3:(id_mod+1)*3]` and then
reassigns `axis = self.axes[id_mod]` — so iteration `j` (for `j` from 0
to `len(axes) - 2`) contributes disc `j` with axis `j`, not disc `j+1`:
disc 0 is counted twice in a two-disc model and the last disc is never
used.  The embedding reproduces this indexing faithfully. -/
noncomputable def evaluate_quantity (m : MMNModel) (x y z : ℝ)
    (cb : ℝ → ℝ → ℝ → ℝ → ℝ → ℝ) : ℝ :=
  axis_term cb x y z (m.axes.getD 0 default) (disc_a m.models 0)
    (disc_b m.models 0) (disc_M m.models 0)
  + ((List.range (m.axes.length - 1)).map (fun j =>
      axis_term cb x y z (m.axes.getD j default) (disc_a m.models j)
        (disc_b m.models j) (disc_M m.models j))).sum

/-- `MMNModel.evaluate_potential(x, y, z)`. -/
noncomputable def evaluate_potential (m : MMNModel) (x y z : ℝ) : ℝ :=
  evaluate_quantity m x y z mn_potential

/-- `MMNModel.evaluate_density(x, y, z)`. -/
noncomputable def evaluate_density (m : MMNModel) (x y z : ℝ) : ℝ :=
  evaluate_quantity m x y z mn_density

end MMNModel

/-- The fit target of `MMNFitter` (`fit_type`): the source dispatches
`'density'` and `'potential'` explicitly and sends every other value —
including the documented `'force'` — to `MMNModel.mn_force`. -/
inductive FitType
  | density
  | potential
  | force
deriving DecidableEq, Repr

/-- Whether a loglikelihood evaluation returned `-np.inf` or a real value. -/
inductive LLValue
  | negInf
  | val (x : ℝ)

/-- The state of `MultiMiyamotoNagai.fitter.MMNFitter` that the
likelihood code reads: the axis assignment fixed by `set_model_type`, the
current flat parameter vector `self.models`, the configured fit type, the
`check_positive_definite` flag, the loaded data rows `(x, y, z, p)` and
the per-point noise `self.yerr`. -/
structure MMNFitter where
  axes : List Axis
  models : List ℝ
  fit_type : FitType
  check_DP : Bool
  data : List (ℝ × ℝ × ℝ × ℝ)
  yerr : List ℝ

namespace MMNFitter

/-- The per-point sum of `MMNFitter.sMN`: on each data point, the summed
quantity over the discs, with `a, b, M = models[id_mod*3:(id_mod+1)*3]`
and the axis dispatch; this loop maintains its index correctly
(`enumerate(self.axes)`). -/
noncomputable def sMN_point (axes : List Axis) (models : List ℝ)
    (cb : ℝ → ℝ → ℝ → ℝ → ℝ → ℝ) (x y z : ℝ) : ℝ :=
  (axes.enum.map (fun p =>
    axis_term cb x y z p.2 (disc_a models p.1) (disc_b models p.1)
      (disc_M models p.1))).sum

/-- `MMNFitter.sMN(models)`: picks the evaluation callback from the fit
type and sums each disc's quantity over every data point.  An empty
`models` argument falls back to the instance's own vector.  For any fit
type other than `'density'`/`'potential'` the source evaluates
`MMNModel.mn_force`, an attribute `MMNModel` does not define, so the
lookup raises `AttributeError`. -/
noncomputable def sMN (f : MMNFitter) (models : List ℝ) : Except PyExc (List ℝ) :=
  let ms := if models = [] then f.models else models
  match f.fit_type with
  | .density =>
    .ok (f.data.map (fun r => sMN_point f.axes ms MMNModel.mn_density r.1 r.2.1 r.2.2.1))
  | .potential =>
    .ok (f.data.map (fun r => sMN_point f.axes ms MMNModel.mn_potential r.1 r.2.1 r.2.2.1))
  | .force => .error .attributeError

/-- The constraint loop of `MMNFitter.loglikelihood`.  `M` starts as a
fresh `MMNModel()`, but the first unpack `a, b, M = models[...]` rebinds
`M` to the disc amplitude (a float).  So in each iteration: return
`-np.inf` when `a + b < 0`; otherwise, when `check_DP` is set, the call
`M.add_model(axis, a, b, M)` is made on a float and raises
`AttributeError`. -/
noncomputable def ll_loop (check_DP : Bool) (models : List ℝ) :
    List (ℕ × Axis) → Except PyExc Bool
  | [] => .ok false
  | (i, _) :: rest =>
    let a := disc_a models i
    let b := disc_b models i
    if a + b < 0 then .ok true
    else if check_DP then .error .attributeError
    else ll_loop check_DP models rest

/-- `MMNFitter.loglikelihood(models)`.  After the constraint loop (which
can only complete with `check_DP` set when the axis list is empty — in
that case `M.is_positive_definite()` is reached on the fresh model, whose
`op.fminbound(self.evaluate_density, 0, 1000)` passes a single argument
to the three-argument `evaluate_density` and raises `TypeError`), the
Gaussian value `-0.5 * sum((p - model)**2 * inv_sigma2 - log(inv_sigma2))`
is computed with `inv_sigma2 = 1.0 / yerr**2` and `model = sMN(models)`. -/
noncomputable def loglikelihood (f : MMNFitter) (models : List ℝ) :
    Except PyExc LLValue := do
  let returnedInf ← ll_loop f.check_DP models f.axes.enum
  if returnedInf then
    return .negInf
  else if f.check_DP then
    .error .typeError
  else do
    let preds ← sMN f models
    let ps := f.data.map (fun r => r.2.2.2)
    return .val (-0.5 * (((ps.zip preds).zip f.yerr).map (fun q =>
      let inv_sigma2 := 1 / q.2 ^ 2;
      (q.1.1 - q.1.2) ^ 2 * inv_sigma2 - Real.log inv_sigma2)).sum)

set_option linter.unusedVariables false in
/-- The burn-in handling of `MMNFitter.fit_data(burnin)`, applied to the
sampler's chain (walkers × steps × parameters): the source sets
`nstp = 0.5 * self.n_steps` — ignoring the `burnin` argument entirely —
and returns `self.sampler.chain[:, nstp:, :].reshape((-1, self.ndim))`,
i.e. every walker's chain with its first half dropped, flattened
walker-major.  (`0.5 * n_steps` is an integral float for even `n_steps`;
ℕ division models the floor.) -/
def fit_data_samples (burnin : ℝ) (n_steps : ℕ)
    (chain : List (List (List ℝ))) : List (List ℝ) :=
  (chain.map (fun w => w.drop (n_steps / 2))).flatten

end MMNFitter

/-- The Gaussian log-likelihood exactly as the spec states it:
`-0.5 * Σ [(observed - predicted)^2 / σ^2 + log(σ^2)]`. -/
noncomputable def gaussian_loglikelihood (ps preds sigmas : List ℝ) : ℝ :=
  -0.5 * (((ps.zip preds).zip sigmas).map (fun q =>
    (q.1.1 - q.1.2) ^ 2 / q.2 ^ 2 + Real.log (q.2 ^ 2))).sum

/-- The single-disk potential formula exactly as the spec states it:
`-G*M / sqrt(r^2 + (a+h)^2)` with `h = sqrt(z^2 + b^2)` — the amplitude
`M` enters linearly, with its sign. -/
noncomputable def potential_formula_spec (r z a b M : ℝ) : ℝ :=
  -G * M / Real.sqrt (r ^ 2 + (a + Real.sqrt (z ^ 2 + b ^ 2)) ^ 2)

/-! ### Proof-support definitions -/

/-- Structural-recursion view of the `get_model` grouping: head triple,
then the rest (used to reason about the enumerate-and-slice loop). -/
def getModelRec : List Axis → List ℝ → List (Axis × List ℝ)
  | [], _ => []
  | ax :: axs, ds => (ax, ds.take 3) :: getModelRec axs (ds.drop 3)

/-- The flat `a, b, M` parameter list produced by a sequence of disc
additions. -/
def flat_params : List (Axis × ℝ × ℝ × ℝ) → List ℝ
  | [] => []
  | t :: rest => [t.2.1, t.2.2.1, t.2.2.2] ++ flat_params rest

/-! ### Helper lemmas -/

theorem enumFrom_map_slice (axs : List Axis) :
    ∀ (n : ℕ) (ds : List ℝ),
      ((axs.enumFrom n).map (fun p => (p.2, (ds.drop (3 * p.1)).take 3)))
        = getModelRec axs (ds.drop (3 * n)) := by
  induction axs with
  | nil => intro n ds; rfl
  | cons ax axs ih =>
    intro n ds
    simp only [List.enumFrom, List.map_cons, getModelRec]
    congr 1
    rw [List.drop_drop, show 3 * n + 3 = 3 * (n + 1) from by ring]
    exact ih (n + 1) ds

theorem get_model_eq_rec (m : MNnModel) :
    m.get_model = getModelRec m.axes m.discs := by
  have h := enumFrom_map_slice m.axes 0 m.discs
  simpa [MNnModel.get_model, List.enum] using h

theorem getModelRec_length : ∀ (axs : List Axis) (ds : List ℝ),
    (getModelRec axs ds).length = axs.length := by
  intro axs
  induction axs with
  | nil => intro ds; rfl
  | cons ax axs ih => intro ds; simp [getModelRec, ih]

theorem getModelRec_entry_length : ∀ (axs : List Axis) (ds : List ℝ),
    ds.length = 3 * axs.length → ∀ e ∈ getModelRec axs ds, e.2.length = 3 := by
  intro axs
  induction axs with
  | nil => intro ds _ e he; simp [getModelRec] at he
  | cons ax axs ih =>
    intro ds hlen e he
    simp only [getModelRec, List.mem_cons] at he
    rcases he with he | he
    · subst he
      simp only [List.length_take, List.length_cons] at hlen ⊢
      omega
    · have hlen' : ds.length = 3 * axs.length + 3 := by
        simp only [List.length_cons] at hlen
        omega
      exact ih (ds.drop 3) (by simp only [List.length_drop]; omega) e he

theorem add_discs_ok (L : List (Axis × ℝ × ℝ × ℝ)) :
    ∀ (s : MNnModel), (∀ t ∈ L, 0 ≤ t.2.2.1) →
      MNnModel.add_discs s L
        = .ok ⟨s.discs ++ flat_params L, s.axes ++ L.map Prod.fst⟩ := by
  induction L with
  | nil => intro s _; simp [MNnModel.add_discs, flat_params]
  | cons t rest ih =>
    intro s h
    obtain ⟨ax, a, b, M⟩ := t
    have hb : ¬ b < 0 := not_lt.mpr (h (ax, a, b, M) (by simp))
    simp only [MNnModel.add_discs, MNnModel.add_disc, if_neg hb, Bind.bind, Except.bind]
    rw [ih _ (fun t ht => h t (by simp [ht]))]
    simp [flat_params]

theorem getModelRec_flat_params (L : List (Axis × ℝ × ℝ × ℝ)) :
    getModelRec (L.map Prod.fst) (flat_params L)
      = L.map (fun t => (t.1, [t.2.1, t.2.2.1, t.2.2.2])) := by
  induction L with
  | nil => rfl
  | cons t rest ih =>
    have h1 : ([t.2.1, t.2.2.1, t.2.2.2] ++ flat_params rest).take 3
        = [t.2.1, t.2.2.1, t.2.2.2] := rfl
    have h2 : ([t.2.1, t.2.2.1, t.2.2.2] ++ flat_params rest).drop 3
        = flat_params rest := rfl
    simp only [List.map_cons, flat_params, getModelRec, h1, h2, ih]

theorem ll_loop_completes (models : List ℝ) (l : List (ℕ × Axis))
    (h : ∀ p ∈ l, 0 ≤ disc_a models p.1 + disc_b models p.1) :
    MMNFitter.ll_loop false models l = .ok false := by
  induction l with
  | nil => rfl
  | cons p rest ih =>
    have h0 := h p (by simp)
    simp only [MMNFitter.ll_loop, if_neg (not_lt.mpr h0), if_neg (by simp : ¬ false = true)]
    exact ih (fun q hq => h q (by simp [hq]))

theorem mnn_density_linear (r z a b M : ℝ) :
    MNnModel.mn_density r z a b M = M * MNnModel.mn_density r z a b 1 := by
  simp only [MNnModel.mn_density]
  ring

theorem mnn_potential_linear (r z a b M : ℝ) :
    MNnModel.mn_potential r z a b M = M * MNnModel.mn_potential r z a b 1 := by
  simp only [MNnModel.mn_potential]
  ring

/-! ### Claims -/

/-- C1: in the mnn variant, evaluating a two-disc model at a point equals
the sum of evaluating each disc alone there — for any scalar quantity
callback (hence for density and potential) and for the force — each disc
using its own axis-local radius/height.  In the MultiMiyamotoNagai
variant this fails: its `_evaluate_quantity` loop re-reads disc 0's
parameters and axis in place of disc 1's, so the two-disc model
`[('z',0,1,1), ('z',0,1,3)]` evaluates at the origin to `-2G` (twice disc
0's potential) while the two discs alone evaluate to `-G` and `-3G`,
whose sum `-4G` is different. -/
theorem c1_two_disc_summation :
    (∀ (cb : ℝ → ℝ → ℝ → ℝ → ℝ → ℝ) (x y z a1 b1 M1 a2 b2 M2 : ℝ) (ax1 ax2 : Axis),
        MNnModel.evaluate_scalar_quantity ⟨[a1, b1, M1, a2, b2, M2], [ax1, ax2]⟩ x y z cb
          = MNnModel.evaluate_scalar_quantity ⟨[a1, b1, M1], [ax1]⟩ x y z cb
            + MNnModel.evaluate_scalar_quantity ⟨[a2, b2, M2], [ax2]⟩ x y z cb)
    ∧ (∀ (x y z a1 b1 M1 a2 b2 M2 : ℝ) (ax1 ax2 : Axis),
        MNnModel.evaluate_force ⟨[a1, b1, M1, a2, b2, M2], [ax1, ax2]⟩ x y z
          = MNnModel.evaluate_force ⟨[a1, b1, M1], [ax1]⟩ x y z
            + MNnModel.evaluate_force ⟨[a2, b2, M2], [ax2]⟩ x y z)
    ∧ MMNModel.evaluate_potential ⟨[0, 1, 1, 0, 1, 3], [.z, .z]⟩ 0 0 0 = -(2 * G)
    ∧ MMNModel.evaluate_potential ⟨[0, 1, 1], [.z]⟩ 0 0 0
        + MMNModel.evaluate_potential ⟨[0, 1, 3], [.z]⟩ 0 0 0 = -(4 * G)
    ∧ -(2 * G) ≠ -(4 * G) := by
  refine ⟨?_, ?_, ?_, ?_, ?_⟩
  · intro cb x y z a1 b1 M1 a2 b2 M2 ax1 ax2
    have e1 : disc_a [a1, b1, M1, a2, b2, M2] 1 = a2 := rfl
    have e2 : disc_b [a1, b1, M1, a2, b2, M2] 1 = b2 := rfl
    have e3 : disc_M [a1, b1, M1, a2, b2, M2] 1 = M2 := rfl
    have e4 : disc_a [a1, b1, M1, a2, b2, M2] 0 = a1 := rfl
    have e5 : disc_b [a1, b1, M1, a2, b2, M2] 0 = b1 := rfl
    have e6 : disc_M [a1, b1, M1, a2, b2, M2] 0 = M1 := rfl
    have f1 : disc_a [a1, b1, M1] 0 = a1 := rfl
    have f2 : disc_b [a1, b1, M1] 0 = b1 := rfl
    have f3 : disc_M [a1, b1, M1] 0 = M1 := rfl
    have g1 : disc_a [a2, b2, M2] 0 = a2 := rfl
    have g2 : disc_b [a2, b2, M2] 0 = b2 := rfl
    have g3 : disc_M [a2, b2, M2] 0 = M2 := rfl
    simp [MNnModel.evaluate_scalar_quantity, List.enum, List.enumFrom,
      e1, e2, e3, e4, e5, e6, f1, f2, f3, g1, g2, g3]
  · intro x y z a1 b1 M1 a2 b2 M2 ax1 ax2
    have e1 : disc_a [a1, b1, M1, a2, b2, M2] 1 = a2 := rfl
    have e2 : disc_b [a1, b1, M1, a2, b2, M2] 1 = b2 := rfl
    have e3 : disc_M [a1, b1, M1, a2, b2, M2] 1 = M2 := rfl
    have e4 : disc_a [a1, b1, M1, a2, b2, M2] 0 = a1 := rfl
    have e5 : disc_b [a1, b1, M1, a2, b2, M2] 0 = b1 := rfl
    have e6 : disc_M [a1, b1, M1, a2, b2, M2] 0 = M1 := rfl
    have f1 : disc_a [a1, b1, M1] 0 = a1 := rfl
    have f2 : disc_b [a1, b1, M1] 0 = b1 := rfl
    have f3 : disc_M [a1, b1, M1] 0 = M1 := rfl
    have g1 : disc_a [a2, b2, M2] 0 = a2 := rfl
    have g2 : disc_b [a2, b2, M2] 0 = b2 := rfl
    have g3 : disc_M [a2, b2, M2] 0 = M2 := rfl
    simp [MNnModel.evaluate_force, List.enum, List.enumFrom,
      e1, e2, e3, e4, e5, e6, f1, f2, f3, g1, g2, g3]
  · have hs9 : Real.sqrt (9:ℝ) = 3 := by
      rw [show (9:ℝ) = 3 ^ 2 from by norm_num, Real.sqrt_sq] ; norm_num
    norm_num [MMNModel.evaluate_potential, MMNModel.evaluate_quantity,
      MMNModel.mn_potential, axis_term, disc_a, disc_b, disc_M,
      show List.range 1 = [0] from rfl, hs9]
    ring
  · have hs9 : Real.sqrt (9:ℝ) = 3 := by
      rw [show (9:ℝ) = 3 ^ 2 from by norm_num, Real.sqrt_sq] ; norm_num
    norm_num [MMNModel.evaluate_potential, MMNModel.evaluate_quantity,
      MMNModel.mn_potential, axis_term, disc_a, disc_b, disc_M,
      show List.range 0 = [] from rfl, hs9]
    ring
  · norm_num [G]

/-- C2: the claim says `MMNFitter.loglikelihood` never raises and signals
invalidity only through the returned value.  The code instead raises
`AttributeError` for every well-typed parameter vector whose first disc
passes the `a+b >= 0` test while `check_positive_definite` is enabled,
because the loop unpack `a, b, M = models[...]` rebinds `M` — the
`MMNModel` — to the float amplitude before `M.add_model` is called.  The
`a+b < 0` early rejection (first conjunct below holds with `-np.inf`)
fires before that call, as the claim describes. -/
theorem c2_loglikelihood_raises :
    MMNFitter.loglikelihood ⟨[.z], [], .potential, true, [(0, 0, 0, 1)], [1]⟩ [1, 0.1, 50]
      = .error .attributeError
    ∧ MMNFitter.loglikelihood ⟨[.z], [], .potential, true, [(0, 0, 0, 1)], [1]⟩ [-5, 1, 50]
      = .ok .negInf := by
  constructor
  · norm_num [MMNFitter.loglikelihood, MMNFitter.ll_loop, List.enum, disc_a, disc_b,
      Bind.bind, Except.bind]
  · norm_num [MMNFitter.loglikelihood, MMNFitter.ll_loop, List.enum, disc_a, disc_b,
      Bind.bind, Except.bind, Pure.pure, Except.pure]

/-- C3 (amended): `MNnModel.add_disc` rejects `b < 0` with an `MNnError`
and adds nothing, and for `b >= 0` (in particular `b = 0`) appends the
disc, warning — without failing — exactly when `a + b < 0`; this holds
for every axis and all real `a`, `M`.  `MMNModel.add_model`, the other
disk-adding operation the claim covers, performs no validation at all and
appends unconditionally. -/
theorem c3_add_disc_spec (m : MNnModel) (m2 : MMNModel) (axis : Axis) (a b M : ℝ) :
    (b < 0 → (∀ r, MNnModel.add_disc m axis a b M ≠ .ok r)
      ∧ MNnModel.add_disc m axis a b M = .error (.heightNegative b))
    ∧ (0 ≤ b → ∃ warned, MNnModel.add_disc m axis a b M
          = .ok ({ discs := m.discs ++ [a, b, M], axes := m.axes ++ [axis] }, warned)
        ∧ (warned = true ↔ a + b < 0))
    ∧ MMNModel.add_model m2 axis a b M
        = { models := m2.models ++ [a, b, M], axes := m2.axes ++ [axis] } := by
  refine ⟨?_, ?_, rfl⟩
  · intro hb
    constructor
    · intro r
      simp [MNnModel.add_disc, if_pos hb]
    · simp [MNnModel.add_disc, if_pos hb]
  · intro hb
    refine ⟨if a + b < 0 then true else false, ?_, ?_⟩
    · simp [MNnModel.add_disc, if_neg (not_lt.mpr hb)]
    · constructor
      · intro hw
        by_contra hab
        simp [if_neg hab] at hw
      · intro hab
        simp [if_pos hab]

/-- C3 witness: `b = -1` is rejected with the constraint error, `b = 0`
is accepted and appended (the warning flag is off since `1 + 0 >= 0`). -/
theorem c3_add_disc_spec_witness :
    MNnModel.add_disc ⟨[], []⟩ .z 1 (-1) 5 = .error (.heightNegative (-1))
    ∧ (∃ warned, MNnModel.add_disc ⟨[], []⟩ .z 1 0 5 = .ok (⟨[1, 0, 5], [.z]⟩, warned)
        ∧ (warned = true ↔ (1:ℝ) + 0 < 0)) := by
  constructor
  · exact (c3_add_disc_spec ⟨[], []⟩ ⟨[], []⟩ .z 1 (-1) 5).1 (by norm_num) |>.2
  · exact (c3_add_disc_spec ⟨[], []⟩ ⟨[], []⟩ .z 1 0 5).2.1 (by norm_num)

/-- C3 counterexample: the claim's "raises a constraint error when b < 0
and does not add the disk" is false for `MMNModel.add_model`: with
`b = -1` it cannot fail (its result type carries no error) and it appends
the disc anyway. -/
theorem c3_add_model_counterexample :
    MMNModel.add_model ⟨[], []⟩ .z 0 (-1) 0 = ⟨[0, -1, 0], [.z]⟩
    ∧ (MMNModel.add_model ⟨[], []⟩ .z 0 (-1) 0).models ≠ [] := by
  constructor
  · rfl
  · simp [MMNModel.add_model]

/-- C4: the claim says that with no `max_range` each axis's density is
minimized over `[0, 10 × largest non-aligned scale]` and that the method
returns false iff a checked axis has a negative minimum.  In the code the
derived bound `mr * 10` is never passed to the minimizer: `op.fminbound`
receives the original `max_range` (`None`) as its upper bound and raises,
for every minimizer behaviour, as soon as one axis is actually checked
(first conjunct, a single z-disc with scale 1).  Only the skip branch is
reachable: when every axis's largest non-aligned scale is ~0 the method
returns true without ever minimizing (second conjunct, a single z-disc
with negative scale). -/
theorem c4_is_positive_definite_none_raises (minimizer : MNnModel.Minimizer) :
    MNnModel.is_positive_definite minimizer ⟨[1, 0.1, 50], [.z]⟩ none = .error .typeError
    ∧ MNnModel.is_positive_definite minimizer ⟨[-0.5, 1, 10], [.z]⟩ none = .ok true := by
  constructor
  · simp [MNnModel.is_positive_definite, MNnModel.ipd_axis, MNnModel.max_nonaligned_scale,
      MNnModel.get_model, List.enum, Bind.bind, Except.bind]
    norm_num
  · simp [MNnModel.is_positive_definite, MNnModel.ipd_axis, MNnModel.max_nonaligned_scale,
      MNnModel.get_model, List.enum, Bind.bind, Except.bind, Pure.pure, Except.pure]
    norm_num

/-- C5 (amended): `fit_data` always discards the first half of every
walker's chain — the `burnin` argument has no effect on the result — and
flattens the remaining per-walker chains walker-major into a single
ordered sample; on a chain of `n_steps`-step walkers the sample holds
`n_steps - n_steps/2` vectors per walker. -/
theorem c5_fit_data_samples_spec (burnin1 burnin2 : ℝ) (n_steps : ℕ)
    (chain : List (List (List ℝ)))
    (h : ∀ w ∈ chain, w.length = n_steps) :
    MMNFitter.fit_data_samples burnin1 n_steps chain
      = MMNFitter.fit_data_samples burnin2 n_steps chain
    ∧ MMNFitter.fit_data_samples burnin1 n_steps chain
        = (chain.map (fun w => w.drop (n_steps / 2))).flatten
    ∧ (MMNFitter.fit_data_samples burnin1 n_steps chain).length
        = chain.length * (n_steps - n_steps / 2) := by
  refine ⟨rfl, rfl, ?_⟩
  simp only [MMNFitter.fit_data_samples, List.length_flatten, List.map_map]
  rw [List.map_congr_left (g := fun _ => n_steps - n_steps / 2)
    (fun w hw => by simp [List.length_drop, h w hw])]
  rw [List.map_const', List.sum_replicate, smul_eq_mul]

/-- C5 witness: on a single 4-step walker the sample is independent of
the burn-in argument and keeps `4 - 4/2 = 2` vectors. -/
theorem c5_fit_data_samples_spec_witness :
    MMNFitter.fit_data_samples 100 4 [[[1], [2], [3], [4]]]
      = MMNFitter.fit_data_samples 0 4 [[[1], [2], [3], [4]]]
    ∧ (MMNFitter.fit_data_samples 100 4 [[[1], [2], [3], [4]]]).length = 2 := by
  have h := c5_fit_data_samples_spec 100 0 4 [[[1], [2], [3], [4]]]
    (by intro w hw; simp at hw; subst hw; rfl)
  exact ⟨h.1, by simpa using h.2.2⟩

/-- C5 counterexample: with `burnin = 3/4` on a 4-step chain the claim
says the caller-specified burn-in fraction is discarded, leaving only the
last step `[[4]]`; the code keeps the last two steps regardless. -/
theorem c5_burnin_ignored_counterexample :
    MMNFitter.fit_data_samples (3 / 4) 4 [[[1], [2], [3], [4]]] = [[3], [4]]
    ∧ [[(3:ℝ)], [4]] ≠ [[(4:ℝ)]] := by
  constructor
  · rfl
  · simp

/-- The pointwise identity behind the Gaussian log-likelihood: the term
the code computes with `inv_sigma2` equals the term the spec writes with
`σ²` (`log` of an inverse is the negated `log`). -/
theorem gauss_term_eq (p m s : ℝ) :
    (p - m) ^ 2 * (1 / s ^ 2) - Real.log (1 / s ^ 2)
      = (p - m) ^ 2 / s ^ 2 + Real.log (s ^ 2) := by
  rw [one_div, Real.log_inv, div_eq_mul_inv]
  ring

/-- C6: for accepted parameter vectors the likelihood value equals the
Gaussian formula `-0.5·Σ[(observed−predicted)²/σ² + log(σ²)]` with the
predictions given by the summed per-disc potential (or density) over the
data points — but only when positive-definiteness checking is disabled
and the fit type is `'potential'` or `'density'`.  For the fit type
`'force'` the claim fails: `sMN` looks up the non-existent
`MMNModel.mn_force` and raises `AttributeError` instead of returning a
value (third conjunct; the `check_DP` crash is claim C2). -/
theorem c6_loglikelihood_formula (f : MMNFitter) (models : List ℝ)
    (hdp : f.check_DP = false)
    (hne : models ≠ [])
    (hab : ∀ p ∈ f.axes.enum, 0 ≤ disc_a models p.1 + disc_b models p.1) :
    (f.fit_type = .potential →
      MMNFitter.loglikelihood f models
        = .ok (.val (gaussian_loglikelihood (f.data.map (fun r => r.2.2.2))
            (f.data.map (fun r =>
              MMNFitter.sMN_point f.axes models MMNModel.mn_potential r.1 r.2.1 r.2.2.1))
            f.yerr)))
    ∧ (f.fit_type = .density →
      MMNFitter.loglikelihood f models
        = .ok (.val (gaussian_loglikelihood (f.data.map (fun r => r.2.2.2))
            (f.data.map (fun r =>
              MMNFitter.sMN_point f.axes models MMNModel.mn_density r.1 r.2.1 r.2.2.1))
            f.yerr)))
    ∧ MMNFitter.loglikelihood ⟨[.z], [], .force, false, [(0, 0, 0, 1)], [1]⟩ [1, 0.1, 50]
        = .error .attributeError := by
  have hloop := ll_loop_completes models f.axes.enum hab
  refine ⟨?_, ?_, ?_⟩
  · intro hft
    simp only [MMNFitter.loglikelihood, hdp, hloop, MMNFitter.sMN, hft, if_neg hne,
      Bind.bind, Except.bind, Bool.false_eq_true, if_false, gaussian_loglikelihood]
    rw [List.map_congr_left (fun q _ => gauss_term_eq q.1.1 q.1.2 q.2)]
    rfl
  · intro hft
    simp only [MMNFitter.loglikelihood, hdp, hloop, MMNFitter.sMN, hft, if_neg hne,
      Bind.bind, Except.bind, Bool.false_eq_true, if_false, gaussian_loglikelihood]
    rw [List.map_congr_left (fun q _ => gauss_term_eq q.1.1 q.1.2 q.2)]
    rfl
  · norm_num [MMNFitter.loglikelihood, MMNFitter.ll_loop, MMNFitter.sMN, List.enum,
      disc_a, disc_b, Bind.bind, Except.bind]

/-- C6 witness: the formula conjunct instantiated at a one-disc
`'potential'` fitter with a single data point. -/
theorem c6_loglikelihood_formula_witness :
    MMNFitter.loglikelihood ⟨[.z], [], .potential, false, [(0, 0, 0, 1)], [1]⟩ [1, 0.1, 50]
      = .ok (.val (gaussian_loglikelihood [1]
          [MMNFitter.sMN_point [.z] [1, 0.1, 50] MMNModel.mn_potential 0 0 0] [1])) := by
  have h := (c6_loglikelihood_formula ⟨[.z], [], .potential, false, [(0, 0, 0, 1)], [1]⟩
    [1, 0.1, 50] rfl (by simp)
    (by intro p hp; simp [List.enum, List.enumFrom] at hp; subst hp
        norm_num [disc_a, disc_b])).1 rfl
  simpa using h

/-- C7 (amended): the mnn variant's single-disk potential is exactly the
spec formula `-G·M/sqrt(r² + (a+h)²)`, `h = sqrt(z²+b²)`, for every
amplitude `M`; the MultiMiyamotoNagai variant computes the same formula
with `|M|` in place of `M` and so agrees with it exactly when `M ≥ 0`.
Both one-disc models `(z, 1.0, 0.1, 50.0)` evaluate at the origin to
`-G·50/(1+0.1)`. -/
theorem c7_potential_formula (r z a b M : ℝ) :
    MNnModel.mn_potential r z a b M = potential_formula_spec r z a b M
    ∧ (0 ≤ M → MMNModel.mn_potential r z a b M = potential_formula_spec r z a b M)
    ∧ MNnModel.evaluate_potential ⟨[1, 0.1, 50], [.z]⟩ 0 0 0 = -G * 50 / (1 + 0.1)
    ∧ MMNModel.evaluate_potential ⟨[1, 0.1, 50], [.z]⟩ 0 0 0 = -G * 50 / (1 + 0.1) := by
  have h1 : Real.sqrt ((0:ℝ) ^ 2 + (0.1:ℝ) ^ 2) = 0.1 := by
    rw [show ((0:ℝ) ^ 2 + (0.1:ℝ) ^ 2) = (0.1:ℝ) ^ 2 from by norm_num]
    rw [Real.sqrt_sq] ; norm_num
  have h2 : Real.sqrt ((0:ℝ) ^ 2 + ((1:ℝ) + 0.1) ^ 2) = 1.1 := by
    rw [show ((0:ℝ) ^ 2 + ((1:ℝ) + 0.1) ^ 2) = (1.1:ℝ) ^ 2 from by norm_num]
    rw [Real.sqrt_sq] ; norm_num
  have hmn : MNnModel.mn_potential 0 0 1 0.1 50 = -G * 50 / (1 + 0.1) := by
    simp only [MNnModel.mn_potential, h1, h2]
    norm_num
  refine ⟨rfl, ?_, ?_, ?_⟩
  · intro hM
    simp only [MMNModel.mn_potential, potential_formula_spec, Real.sqrt_sq hM]
  · simp [MNnModel.evaluate_potential, MNnModel.evaluate_scalar_quantity, axis_term,
      disc_a, disc_b, disc_M, List.enum, hmn]
  · have h50 : Real.sqrt ((50:ℝ) ^ 2) = 50 := by
      rw [Real.sqrt_sq] ; norm_num
    have hmmn : MMNModel.mn_potential 0 0 1 0.1 50 = -G * 50 / (1 + 0.1) := by
      simp only [MMNModel.mn_potential, h50, h1, h2]
      norm_num
    simp [MMNModel.evaluate_potential, MMNModel.evaluate_quantity, axis_term,
      disc_a, disc_b, disc_M, show List.range 0 = [] from rfl, hmmn]

/-- C7 witness: the MultiMiyamotoNagai conjunct instantiated at the
non-negative amplitude `M = 50`. -/
theorem c7_potential_formula_witness :
    MMNModel.mn_potential 2 3 1 4 50 = potential_formula_spec 2 3 1 4 50 :=
  (c7_potential_formula 2 3 1 4 50).2.1 (by norm_num)

/-- C7 counterexample: the claim's formula with the signed amplitude is
false for the MultiMiyamotoNagai variant: at `M = -1` the code returns
`-G·|M|/… = -G` while the formula gives `+G`. -/
theorem c7_mmn_negative_amplitude_counterexample :
    MMNModel.mn_potential 0 0 0 1 (-1) ≠ potential_formula_spec 0 0 0 1 (-1) := by
  have h1 : Real.sqrt ((0:ℝ) ^ 2 + (1:ℝ) ^ 2) = 1 := by norm_num
  have hM : Real.sqrt (((-1):ℝ) ^ 2) = 1 := by
    rw [show (((-1):ℝ) ^ 2) = (1:ℝ) ^ 2 from by norm_num]
    rw [Real.sqrt_sq] ; norm_num
  simp only [MMNModel.mn_potential, potential_formula_spec, h1, hM]
  norm_num [G]

/-- C8: after any sequence of successful `add_disc` calls (all heights
non-negative) starting from the empty model, `get_model` returns exactly
the inserted `(axis, a, b, M)` tuples in insertion order.  The returned
sequence is rebuilt from the flat storage on every call (fresh list of
fresh tuples in the source), so it shares nothing with the internal
state — in this pure embedding `get_model` is a function of the state and
cannot alias it. -/
theorem c8_get_model_round_trip (L : List (Axis × ℝ × ℝ × ℝ))
    (h : ∀ t ∈ L, 0 ≤ t.2.2.1) :
    ∃ m, MNnModel.add_discs ⟨[], []⟩ L = .ok m
      ∧ MNnModel.get_model m = L.map (fun t => (t.1, [t.2.1, t.2.2.1, t.2.2.2])) := by
  refine ⟨⟨flat_params L, L.map Prod.fst⟩, ?_, ?_⟩
  · have hok := add_discs_ok L ⟨[], []⟩ h
    simpa using hok
  · rw [get_model_eq_rec]
    exact getModelRec_flat_params L

/-- C8 witness: the docstring example — two discs on z and x — round
trips in insertion order. -/
theorem c8_get_model_round_trip_witness :
    ∃ m, MNnModel.add_discs ⟨[], []⟩ [(.z, 1, 0.1, 50), (.x, 1, 0.5, 10)] = .ok m
      ∧ MNnModel.get_model m = [(.z, [1, 0.1, 50]), (.x, [1, 0.5, 10])] := by
  have h := c8_get_model_round_trip [(.z, 1, 0.1, 50), (.x, 1, 0.5, 10)]
    (by intro t ht
        simp at ht
        rcases ht with rfl | rfl <;> norm_num)
  simpa using h

/-- C9: the MultiMiyamotoNagai single-disc density and potential equal
the mnn versions evaluated at amplitude `|M|` (the former applies
`sqrt(M²)`, the latter uses `M` directly); hence the variants agree for
every `M ≥ 0` and differ for every `M < 0` at which the value is
nonzero. -/
theorem c9_variant_amplitude_relation (r z a b M : ℝ) :
    MMNModel.mn_density r z a b M = MNnModel.mn_density r z a b |M|
    ∧ MMNModel.mn_potential r z a b M = MNnModel.mn_potential r z a b |M|
    ∧ (0 ≤ M → MMNModel.mn_density r z a b M = MNnModel.mn_density r z a b M
        ∧ MMNModel.mn_potential r z a b M = MNnModel.mn_potential r z a b M)
    ∧ (M < 0 →
        (MNnModel.mn_density r z a b M ≠ 0 →
          MMNModel.mn_density r z a b M ≠ MNnModel.mn_density r z a b M)
        ∧ (MNnModel.mn_potential r z a b M ≠ 0 →
          MMNModel.mn_potential r z a b M ≠ MNnModel.mn_potential r z a b M)) := by
  have hd : MMNModel.mn_density r z a b M = MNnModel.mn_density r z a b |M| := by
    simp only [MMNModel.mn_density, MNnModel.mn_density, Real.sqrt_sq_eq_abs]
  have hp : MMNModel.mn_potential r z a b M = MNnModel.mn_potential r z a b |M| := by
    simp only [MMNModel.mn_potential, MNnModel.mn_potential, Real.sqrt_sq_eq_abs]
  refine ⟨hd, hp, ?_, ?_⟩
  · intro hM
    rw [hd, hp, abs_of_nonneg hM]
    exact ⟨rfl, rfl⟩
  · intro hM
    constructor
    · intro hne heq
      rw [hd, abs_of_neg hM, mnn_density_linear r z a b (-M), neg_mul,
        mnn_density_linear r z a b M] at heq
      rw [mnn_density_linear r z a b M] at hne
      apply hne
      linarith
    · intro hne heq
      rw [hp, abs_of_neg hM, mnn_potential_linear r z a b (-M), neg_mul,
        mnn_potential_linear r z a b M] at heq
      rw [mnn_potential_linear r z a b M] at hne
      apply hne
      linarith

/-- C9 witness: at `M = -1` (disc `a = 0`, `b = 1`, origin) the two
variants differ — the mnn potential there is `G ≠ 0`; at `M = 50` they
agree. -/
theorem c9_variant_amplitude_relation_witness :
    MMNModel.mn_potential 0 0 0 1 (-1) ≠ MNnModel.mn_potential 0 0 0 1 (-1)
    ∧ MMNModel.mn_potential 0 0 0 1 50 = MNnModel.mn_potential 0 0 0 1 50 := by
  constructor
  · refine ((c9_variant_amplitude_relation 0 0 0 1 (-1)).2.2.2 (by norm_num)).2 ?_
    norm_num [MNnModel.mn_potential, G]
  · exact ((c9_variant_amplitude_relation 0 0 0 1 50).2.2.1 (by norm_num)).2

/-- C10: the flat disc-parameter list always holds exactly three reals
per stored axis: a successful `add_disc` appends exactly `[a, b, M]` and
one axis (preserving the invariant), a failing one returns the error
before any mutation, `get_model` returns one entry per stored axis and
each entry carries exactly the three parameters, and `MMNModel.add_model`
preserves the same invariant.  The evaluation and validation operations
are read-only functions of the state in this embedding, as in the source
(they only read `discs`/`models` and `axes`). -/
theorem c10_flat_storage_invariant (m : MNnModel) (m2 : MMNModel) (axis : Axis) (a b M : ℝ)
    (h : m.discs.length = 3 * m.axes.length)
    (h2 : m2.models.length = 3 * m2.axes.length) :
    (∀ s w, MNnModel.add_disc m axis a b M = .ok (s, w) →
        s.discs = m.discs ++ [a, b, M] ∧ s.axes = m.axes ++ [axis]
        ∧ s.discs.length = 3 * s.axes.length)
    ∧ (b < 0 → MNnModel.add_disc m axis a b M = .error (.heightNegative b))
    ∧ (MNnModel.get_model m).length = m.axes.length
    ∧ (∀ e ∈ MNnModel.get_model m, e.2.length = 3)
    ∧ (MMNModel.add_model m2 axis a b M).models.length
        = 3 * (MMNModel.add_model m2 axis a b M).axes.length := by
  refine ⟨?_, ?_, ?_, ?_, ?_⟩
  · intro s w heq
    by_cases hb : b < 0
    · simp [MNnModel.add_disc, if_pos hb] at heq
    · simp only [MNnModel.add_disc, if_neg hb, Except.ok.injEq, Prod.mk.injEq] at heq
      obtain ⟨hs, -⟩ := heq
      subst hs
      refine ⟨rfl, rfl, ?_⟩
      simp only [List.length_append, List.length_cons, List.length_nil, h]
      omega
  · intro hb
    simp [MNnModel.add_disc, if_pos hb]
  · rw [get_model_eq_rec]
    exact getModelRec_length m.axes m.discs
  · rw [get_model_eq_rec]
    exact getModelRec_entry_length m.axes m.discs h
  · simp only [MMNModel.add_model, List.length_append, List.length_cons, List.length_nil, h2]
    omega

/-- C10 witness: the invariant facts at a concrete one-disc model and a
concrete addition. -/
theorem c10_flat_storage_invariant_witness :
    (MNnModel.get_model ⟨[1, 0.1, 50], [.z]⟩).length = 1
    ∧ (MMNModel.add_model ⟨[], []⟩ .x 2 3 4).models.length
        = 3 * (MMNModel.add_model ⟨[], []⟩ .x 2 3 4).axes.length := by
  have h := c10_flat_storage_invariant ⟨[1, 0.1, 50], [.z]⟩ ⟨[], []⟩ .x 2 3 4 rfl rfl
  exact ⟨h.2.2.1, h.2.2.2.2⟩
